import Mathlib

/-!
Shallow embedding of the appointment-scheduling core of `src/app.js`
(WhatsApp booking bot backed by MongoDB).

Modelling conventions:
* Calendar days are natural numbers counting days since 1970-01-01 (the
  Unix epoch, a Thursday), so JavaScript's `Date#getDay` for day `d` is
  `(d + 4) % 7` (0 = Sunday … 6 = Saturday).  The `fechaISO` date key of
  a day is represented by the day number itself (ISO date strings are in
  bijection with day numbers).
* The composite Mongo `_id` string `"fechaISO|hora"` is represented by
  the pair `(fechaISO, hora)`; the concatenation with `|` is injective
  because ISO dates contain no `|`, so the pair carries the same
  information.
* The `citas` collection is an association list of `(clave, cita)`
  records in insertion order; MongoDB's uniqueness constraint on `_id`
  is embodied in `guardarCita`, the atomic insert-if-absent primitive.
* Transport/connectivity faults of the database driver are made explicit
  as `Bool` parameters (`fallo…`): `true` means the underlying call
  throws with a non-duplicate-key error.
* JavaScript's unbounded `while (dias.length < 5)` loop is embedded
  with explicit fuel (`genLoop`); `generarDias_termina` proves the fuel
  bound is reached and the result is fuel-independent, i.e. the source
  loop terminates.
-/

/-- JavaScript `Date#getDay` for the day numbered `d` (days since
1970-01-01, a Thursday): 0 = Sunday … 6 = Saturday. -/
def getDay (d : Nat) : Nat := (d + 4) % 7

/-- The weekday test `diaSemana >= 1 && diaSemana <= 5` of
`generarDiasDisponibles` (src/app.js:113). -/
def esLaborable (d : Nat) : Bool := decide (1 ≤ getDay d) && decide (getDay d ≤ 5)

/-- Fuel-indexed unfolding of the loop `while (dias.length < 5)` of
`generarDiasDisponibles` (src/app.js:110-124): advance one calendar day,
keep the day if it is a weekday, stop once 5 days are collected. -/
def genLoop : Nat → Nat → List Nat → List Nat
  | 0, _, dias => dias
  | fuel + 1, fecha, dias =>
    if dias.length < 5 then
      genLoop fuel (fecha + 1) (if esLaborable (fecha + 1) then dias ++ [fecha + 1] else dias)
    else dias

/-- `generarDiasDisponibles` (src/app.js:107-126), with the reference
instant `new Date()` passed explicitly as the current day number `hoy`.
The display label `nombre` (a locale rendering of the date, used only
for messages) is not modelled; each entry is its `fechaISO` day number.
Fuel 11 exceeds the 7 iterations the loop can need (see
`generarDias_termina`). -/
def generarDiasDisponibles (hoy : Nat) : List Nat := genLoop 11 hoy []

theorem esLaborable_shift (q d : Nat) : esLaborable (7 * q + d) = esLaborable d := by
  have h : (7 * q + d + 4) % 7 = (d + 4) % 7 := by omega
  simp [esLaborable, getDay, h]

theorem genLoop_shift (fuel : Nat) : ∀ (q fecha : Nat) (dias : List Nat),
    genLoop fuel (7 * q + fecha) (dias.map (fun x => 7 * q + x)) =
      (genLoop fuel fecha dias).map (fun x => 7 * q + x) := by
  induction fuel with
  | zero => intro q fecha dias; rfl
  | succ fuel ih =>
    intro q fecha dias
    simp only [genLoop, List.length_map]
    by_cases h : dias.length < 5
    · rw [if_pos h, if_pos h]
      have e1 : 7 * q + fecha + 1 = 7 * q + (fecha + 1) := by omega
      rw [e1, esLaborable_shift]
      by_cases hl : esLaborable (fecha + 1)
      · rw [if_pos hl, if_pos hl,
          show dias.map (fun x => 7 * q + x) ++ [7 * q + (fecha + 1)] =
            (dias ++ [fecha + 1]).map (fun x => 7 * q + x) by simp]
        exact ih q (fecha + 1) (dias ++ [fecha + 1])
      · rw [if_neg hl, if_neg hl]
        exact ih q (fecha + 1) dias
    · rw [if_neg h, if_neg h]

theorem generarDias_eq_map (hoy : Nat) :
    generarDiasDisponibles hoy =
      (generarDiasDisponibles (hoy % 7)).map (fun x => 7 * (hoy / 7) + x) := by
  have h : hoy = 7 * (hoy / 7) + hoy % 7 := by omega
  unfold generarDiasDisponibles
  conv_lhs => rw [h]
  have := genLoop_shift 11 (hoy / 7) (hoy % 7) []
  simpa using this

/-- Boolean check that a list of day numbers is strictly increasing. -/
def creciente : List Nat → Bool
  | [] => true
  | [_] => true
  | a :: b :: resto => decide (a < b) && creciente (b :: resto)

theorem creciente_chain' : ∀ l : List Nat, creciente l = true → List.Chain' (· < ·) l
  | [], _ => List.chain'_nil
  | [a], _ => List.chain'_singleton a
  | a :: b :: resto, h => by
    simp only [creciente, Bool.and_eq_true, decide_eq_true_eq] at h
    exact List.chain'_cons.mpr ⟨h.1, creciente_chain' (b :: resto) h.2⟩

theorem base_dias : ∀ r < 7,
    (genLoop 11 r []).length = 5 ∧
    creciente (genLoop 11 r []) = true ∧
    (genLoop 11 r []).all (fun d => decide (r < d) && esLaborable d) = true := by decide

theorem base_dias_mem {r : Nat} (hr : r < 7) :
    ∀ d ∈ genLoop 11 r [], r < d ∧ esLaborable d = true := by
  intro d hd
  have h := (base_dias r hr).2.2
  rw [List.all_eq_true] at h
  have := h d hd
  simp only [Bool.and_eq_true, decide_eq_true_eq] at this
  exact this

theorem longitudDias (hoy : Nat) : (generarDiasDisponibles hoy).length = 5 := by
  rw [generarDias_eq_map hoy]
  have h := (base_dias (hoy % 7) (Nat.mod_lt _ (by omega))).1
  simpa [generarDiasDisponibles] using h

theorem getDay_shift (q d : Nat) : getDay (7 * q + d) = getDay d := by
  unfold getDay; omega

/-- C4: for every reference instant, `generarDiasDisponibles` returns
exactly 5 distinct days, each strictly after the reference day, each a
weekday with `getDay` in {1..5} (Monday-Friday), in strictly increasing
chronological order. -/
theorem generarDias_correcto (hoy : Nat) :
    (generarDiasDisponibles hoy).length = 5 ∧
    (generarDiasDisponibles hoy).Nodup ∧
    List.Pairwise (· < ·) (generarDiasDisponibles hoy) ∧
    ∀ d ∈ generarDiasDisponibles hoy, hoy < d ∧ 1 ≤ getDay d ∧ getDay d ≤ 5 := by
  have hr : hoy % 7 < 7 := Nat.mod_lt _ (by omega)
  obtain ⟨hlen, hcrec, _⟩ := base_dias (hoy % 7) hr
  have hpair : List.Pairwise (· < ·) (genLoop 11 (hoy % 7) []) :=
    List.chain'_iff_pairwise.mp (creciente_chain' _ hcrec)
  have hpair2 : List.Pairwise (· < ·)
      ((genLoop 11 (hoy % 7) []).map (fun x => 7 * (hoy / 7) + x)) :=
    List.pairwise_map.mpr (hpair.imp (fun h => by omega))
  have hmem := base_dias_mem hr
  refine ⟨longitudDias hoy, ?_, ?_, ?_⟩
  · rw [generarDias_eq_map hoy]
    exact hpair2.imp (fun h => Nat.ne_of_lt h)
  · rw [generarDias_eq_map hoy]
    exact hpair2
  · rw [generarDias_eq_map hoy]
    intro d hd
    rw [List.mem_map] at hd
    obtain ⟨x, hx, rfl⟩ := hd
    obtain ⟨h1, h2⟩ := hmem x hx
    have h3 : 1 ≤ getDay x ∧ getDay x ≤ 5 := by
      simpa [esLaborable, Bool.and_eq_true, decide_eq_true_eq] using h2
    refine ⟨by omega, ?_, ?_⟩ <;> rw [getDay_shift] <;> omega

/-- C4 witness: the conclusion instantiated at the epoch day 0. -/
theorem generarDias_correcto_witness :
    (generarDiasDisponibles 0).length = 5 ∧
    (generarDiasDisponibles 0).Nodup ∧
    List.Pairwise (· < ·) (generarDiasDisponibles 0) ∧
    ∀ d ∈ generarDiasDisponibles 0, 0 < d ∧ 1 ≤ getDay d ∧ getDay d ≤ 5 :=
  generarDias_correcto 0

theorem genLoop_estable : ∀ (fuel fuel' fecha : Nat) (dias : List Nat), fuel ≤ fuel' →
    5 ≤ (genLoop fuel fecha dias).length → genLoop fuel' fecha dias = genLoop fuel fecha dias := by
  intro fuel
  induction fuel with
  | zero =>
    intro fuel' fecha dias _ hlen
    simp only [genLoop] at hlen
    cases fuel' with
    | zero => rfl
    | succ f =>
      show (if dias.length < 5 then _ else dias) = dias
      rw [if_neg (by omega)]
  | succ fuel ih =>
    intro fuel' fecha dias hle hlen
    obtain ⟨f', rfl⟩ : ∃ f', fuel' = f' + 1 := ⟨fuel' - 1, by omega⟩
    simp only [genLoop] at hlen ⊢
    by_cases h : dias.length < 5
    · rw [if_pos h] at hlen
      rw [if_pos h, if_pos h]
      exact ih f' (fecha + 1) _ (by omega) hlen
    · rw [if_neg h, if_neg h]

/-- C10: the `while (dias.length < 5)` loop of `generarDiasDisponibles`
terminates from every starting day: 11 iterations of fuel always suffice
(the result no longer depends on the fuel beyond that), and the fully
materialized result has exactly the 5 requested days. -/
theorem generarDias_termina (hoy fuel : Nat) (h : 11 ≤ fuel) :
    genLoop fuel hoy [] = generarDiasDisponibles hoy ∧
    (generarDiasDisponibles hoy).length = 5 := by
  have hlen := longitudDias hoy
  refine ⟨?_, hlen⟩
  unfold generarDiasDisponibles at hlen ⊢
  exact genLoop_estable 11 fuel hoy [] h (by omega)

/-- C10 witness: the theorem applied at day 0 with fuel 40. -/
theorem generarDias_termina_witness :
    genLoop 40 0 [] = generarDiasDisponibles 0 ∧
    (generarDiasDisponibles 0).length = 5 :=
  generarDias_termina 0 40 (by decide)

/-- A booking record, as stored in the `citas` collection
(src/app.js:28-34): `fecha` is the `fechaISO` day number, `hora` the
slot label, `usuario` the requester id, `timestamp` the creation
instant (modelled as a number). -/
structure Cita where
  fecha : Nat
  hora : String
  usuario : String
  timestamp : Nat
deriving DecidableEq, Repr

/-- The composite key `"fechaISO|hora"` (src/app.js:29, 154, 190),
represented as the pair of its two `|`-separated components. -/
abbrev Clave := Nat × String

/-- The `citas` collection: records in insertion order.  MongoDB's
uniqueness constraint on `_id` lives in `guardarCita`, never here. -/
abbrev Citas := List (Clave × Cita)

/-- Lookup by `_id`, i.e. the object access `citas[clave]`. -/
def buscarCita : Citas → Clave → Option Cita
  | [], _ => none
  | (k, c) :: resto, clave => if k = clave then some c else buscarCita resto clave

/-- Outcome of `guardarCita`: the save resolves (`committed`), throws
the duplicate-key error 11000 mapped to the conflict message
(`conflicto`), or throws any other storage error (`noDisponible`). -/
inductive ResultadoGuardar
  | committed
  | conflicto
  | noDisponible
deriving DecidableEq, Repr

/-- `guardarCita` (src/app.js:86-104): build a document with `_id :=
clave` and `save()` it.  The storage engine atomically inserts if the
`_id` is absent and raises error 11000 (→ `conflicto`) if it is
present; a transport fault (`fallo = true`) raises a generic error
(→ `noDisponible`).  In the two error outcomes the collection is left
untouched. -/
def guardarCita (fallo : Bool) (citas : Citas) (clave : Clave) (datos : Cita) :
    ResultadoGuardar × Citas :=
  if fallo then (.noDisponible, citas)
  else
    match buscarCita citas clave with
    | some _ => (.conflicto, citas)
    | none => (.committed, citas ++ [(clave, datos)])

/-- `cargarCitas` (src/app.js:59-79): snapshot read of the whole
collection, keyed by `_id`; a transport fault (`fallo = true`) makes it
throw (`none`). -/
def cargarCitas (fallo : Bool) (citas : Citas) : Option Citas :=
  if fallo then none else some citas

/-- The slot catalog (src/app.js:128). -/
def HORARIOS : List String := ["9:00 AM", "10:30 AM", "1:00 PM", "3:30 PM", "5:00 PM"]

/-- The availability filter of the day-selection handler
(src/app.js:153-156): keep the catalog slots whose composite key has no
record in the snapshot. -/
def horariosDisponibles (fechaISO : Nat) (citas : Citas) : List String :=
  HORARIOS.filter (fun hora => (buscarCita citas (fechaISO, hora)).isNone)

theorem buscarCita_none : ∀ (citas : Citas) (clave : Clave),
    buscarCita citas clave = none ↔ clave ∉ citas.map Prod.fst := by
  intro citas clave
  induction citas with
  | nil => simp [buscarCita]
  | cons par resto ih =>
    obtain ⟨k, c⟩ := par
    simp only [buscarCita, List.map_cons, List.mem_cons]
    by_cases h : k = clave
    · subst h
      simp
    · rw [if_neg h, ih]
      constructor
      · intro hn hor
        rcases hor with he | hm
        · exact h he.symm
        · exact hn hm
      · intro hn hm
        exact hn (Or.inr hm)

/-- The uniqueness invariant: no two records share a `_id` key. -/
def clavesUnicas (citas : Citas) : Prop := (citas.map Prod.fst).Nodup

theorem guardarCita_preserva (fallo : Bool) (citas : Citas) (clave : Clave) (datos : Cita)
    (h : clavesUnicas citas) : clavesUnicas (guardarCita fallo citas clave datos).2 := by
  unfold guardarCita
  cases fallo with
  | true => simpa using h
  | false =>
    cases hb : buscarCita citas clave with
    | some c => simpa [hb] using h
    | none =>
      have hni : clave ∉ citas.map Prod.fst := (buscarCita_none citas clave).mp hb
      simp only [Bool.false_eq_true, if_false, hb]
      unfold clavesUnicas at h ⊢
      rw [List.map_append, List.nodup_append]
      refine ⟨h, by simp, fun a ha hc => ?_⟩
      simp only [List.map_cons, List.map_nil, List.mem_singleton] at hc
      exact hni (hc ▸ ha)

/-- One store operation of a run: a `guardarCita` call with its own
fault flag, key and payload. -/
def pasoGuardar (citas : Citas) (op : Bool × Clave × Cita) : Citas :=
  (guardarCita op.1 citas op.2.1 op.2.2).2

/-- Replay a whole sequence of `guardarCita` calls against the empty
collection. -/
def ejecutarGuardados (ops : List (Bool × Clave × Cita)) : Citas :=
  ops.foldl pasoGuardar []

theorem ejecutar_preserva : ∀ (ops : List (Bool × Clave × Cita)) (citas : Citas),
    clavesUnicas citas → clavesUnicas (ops.foldl pasoGuardar citas) := by
  intro ops
  induction ops with
  | nil => intro citas h; exact h
  | cons op resto ih =>
    intro citas h
    exact ih _ (guardarCita_preserva op.1 citas op.2.1 op.2.2 h)

theorem clavesUnicas_filtro : ∀ (citas : Citas), clavesUnicas citas → ∀ clave : Clave,
    (citas.filter (fun par => decide (par.1 = clave))).length ≤ 1 := by
  intro citas
  induction citas with
  | nil => intro _ clave; simp
  | cons par resto ih =>
    intro h clave
    obtain ⟨k, c⟩ := par
    have h' : k ∉ resto.map Prod.fst ∧ clavesUnicas resto := by
      simpa [clavesUnicas] using h
    by_cases hk : k = clave
    · subst hk
      have hvacio : resto.filter (fun par => decide (par.1 = k)) = [] := by
        rw [List.filter_eq_nil_iff]
        intro par hpar hc
        simp only [decide_eq_true_eq] at hc
        exact h'.1 (List.mem_map.mpr ⟨par, hpar, hc⟩)
      simp [List.filter, hvacio]
    · have : (((k, c) : Clave × Cita) :: resto).filter (fun par => decide (par.1 = clave)) =
          resto.filter (fun par => decide (par.1 = clave)) := by
        simp [List.filter, hk]
      rw [this]
      exact ih h'.2 clave

/-- C1: after any sequence of `guardarCita` calls the collection holds
at most one record per composite key (the filter by any key keeps at
most one record), and the uniqueness invariant is preserved by every
single store operation. -/
theorem citas_claves_unicas :
    (∀ (ops : List (Bool × Clave × Cita)) (clave : Clave),
        ((ejecutarGuardados ops).filter (fun par => decide (par.1 = clave))).length ≤ 1) ∧
    (∀ (fallo : Bool) (citas : Citas) (clave : Clave) (datos : Cita),
        clavesUnicas citas → clavesUnicas (guardarCita fallo citas clave datos).2) := by
  constructor
  · intro ops clave
    have h : clavesUnicas (ejecutarGuardados ops) :=
      ejecutar_preserva ops [] (by simp [clavesUnicas])
    exact clavesUnicas_filtro _ h clave
  · exact guardarCita_preserva

/-- Example record used by the concrete witnesses. -/
def citaEjemplo : Cita := ⟨700, "9:00 AM", "usuario1", 0⟩

/-- Second example record (same key, different requester). -/
def citaEjemplo2 : Cita := ⟨700, "9:00 AM", "usuario2", 1⟩

/-- C1 witness: two saves racing for the key `(700, "9:00 AM")` leave a
single record for it, and one concrete save preserves the invariant. -/
theorem citas_claves_unicas_witness :
    ((ejecutarGuardados
        [(false, (700, "9:00 AM"), citaEjemplo), (false, (700, "9:00 AM"), citaEjemplo2)]).filter
      (fun par => decide (par.1 = (700, "9:00 AM")))).length ≤ 1 ∧
    clavesUnicas (guardarCita false [] (700, "9:00 AM") citaEjemplo).2 :=
  ⟨citas_claves_unicas.1 _ _,
   citas_claves_unicas.2 false [] (700, "9:00 AM") citaEjemplo (by simp [clavesUnicas])⟩

/-- C2: `guardarCita` commits exactly when no record with the key exists
and no transport fault occurs; on a pre-existing key it yields the
distinguishable `conflicto` outcome and leaves the collection unchanged
(no overwrite); every non-committed outcome leaves the collection
unchanged. -/
theorem guardarCita_correcto (fallo : Bool) (citas : Citas) (clave : Clave) (datos : Cita) :
    ((guardarCita fallo citas clave datos).1 = .committed ↔
        fallo = false ∧ buscarCita citas clave = none) ∧
    ((guardarCita fallo citas clave datos).1 = .committed →
        (guardarCita fallo citas clave datos).2 = citas ++ [(clave, datos)]) ∧
    (fallo = false → buscarCita citas clave ≠ none →
        (guardarCita fallo citas clave datos).1 = .conflicto) ∧
    ((guardarCita fallo citas clave datos).1 ≠ .committed →
        (guardarCita fallo citas clave datos).2 = citas) ∧
    (ResultadoGuardar.conflicto ≠ ResultadoGuardar.noDisponible) := by
  cases fallo <;> cases hb : buscarCita citas clave <;> simp [guardarCita, hb]

/-- C2 witness: with the key already taken the save reports `conflicto`
and keeps the store intact; on the empty store it commits. -/
theorem guardarCita_correcto_witness :
    ((guardarCita false [((700, "9:00 AM"), citaEjemplo)] (700, "9:00 AM") citaEjemplo2).1 =
        .committed ↔
      false = false ∧ buscarCita [((700, "9:00 AM"), citaEjemplo)] (700, "9:00 AM") = none) ∧
    ((guardarCita false [((700, "9:00 AM"), citaEjemplo)] (700, "9:00 AM") citaEjemplo2).1 =
        .committed →
      (guardarCita false [((700, "9:00 AM"), citaEjemplo)] (700, "9:00 AM") citaEjemplo2).2 =
        [((700, "9:00 AM"), citaEjemplo)] ++ [((700, "9:00 AM"), citaEjemplo2)]) ∧
    (false = false → buscarCita [((700, "9:00 AM"), citaEjemplo)] (700, "9:00 AM") ≠ none →
      (guardarCita false [((700, "9:00 AM"), citaEjemplo)] (700, "9:00 AM") citaEjemplo2).1 =
        .conflicto) ∧
    ((guardarCita false [((700, "9:00 AM"), citaEjemplo)] (700, "9:00 AM") citaEjemplo2).1 ≠
        .committed →
      (guardarCita false [((700, "9:00 AM"), citaEjemplo)] (700, "9:00 AM") citaEjemplo2).2 =
        [((700, "9:00 AM"), citaEjemplo)]) ∧
    (ResultadoGuardar.conflicto ≠ ResultadoGuardar.noDisponible) :=
  guardarCita_correcto false [((700, "9:00 AM"), citaEjemplo)] (700, "9:00 AM") citaEjemplo2

/-- C5: the availability filter returns exactly the catalog slots whose
key has no record for that day, in catalog order (it is a sublist of
the catalog). -/
theorem horariosDisponibles_correcto (fechaISO : Nat) (citas : Citas) :
    (horariosDisponibles fechaISO citas).Sublist HORARIOS ∧
    ∀ hora, hora ∈ horariosDisponibles fechaISO citas ↔
      (hora ∈ HORARIOS ∧ buscarCita citas (fechaISO, hora) = none) := by
  constructor
  · exact List.filter_sublist _
  · intro hora
    simp [horariosDisponibles, List.mem_filter, Option.isNone_iff_eq_none]

/-- C5 witness: with slot "9:00 AM" of day 700 taken, the filter keeps
the other four catalog slots in order. -/
theorem horariosDisponibles_correcto_witness :
    (horariosDisponibles 700 [((700, "9:00 AM"), citaEjemplo)]).Sublist HORARIOS ∧
    ∀ hora, hora ∈ horariosDisponibles 700 [((700, "9:00 AM"), citaEjemplo)] ↔
      (hora ∈ HORARIOS ∧ buscarCita [((700, "9:00 AM"), citaEjemplo)] (700, hora) = none) :=
  horariosDisponibles_correcto 700 [((700, "9:00 AM"), citaEjemplo)]

/-- The availability resolver as used by the conversation
(src/app.js:150-156): a fault-free snapshot read followed by the filter;
the read leaves the collection as it was. -/
def resolverLibres (fechaISO : Nat) (citas : Citas) : Option (List String) × Citas :=
  ((cargarCitas false citas).map (fun cs => horariosDisponibles fechaISO cs), citas)

/-- C6: the resolver is idempotent: running it a second time on the
collection left by the first run yields the identical slot list, and
the read never modifies the collection. -/
theorem resolverLibres_idempotente (fechaISO : Nat) (citas : Citas) :
    (resolverLibres fechaISO (resolverLibres fechaISO citas).2).1 =
      (resolverLibres fechaISO citas).1 ∧
    (resolverLibres fechaISO citas).2 = citas :=
  ⟨rfl, rfl⟩

/-- C6 witness: the theorem at day 700 over a one-record collection. -/
theorem resolverLibres_idempotente_witness :
    (resolverLibres 700 (resolverLibres 700 [((700, "9:00 AM"), citaEjemplo)]).2).1 =
      (resolverLibres 700 [((700, "9:00 AM"), citaEjemplo)]).1 ∧
    (resolverLibres 700 [((700, "9:00 AM"), citaEjemplo)]).2 =
      [((700, "9:00 AM"), citaEjemplo)] :=
  resolverLibres_idempotente 700 [((700, "9:00 AM"), citaEjemplo)]

/-- Digit run to number, as `parseInt` accumulates base-10 digits. -/
def valorDigitos (ds : List Char) : Nat :=
  ds.foldl (fun acc c => acc * 10 + (c.toNat - 48)) 0

/-- JavaScript `parseInt(texto)` (radix 10 on the bot's inputs): skip
leading whitespace, read an optional sign and then the longest leading
digit run, ignoring the rest; `none` models `NaN` (no digit found). -/
def parseIntJs (texto : String) : Option Int :=
  let cs := texto.toList.dropWhile (fun c => c == ' ' || c == '\t' || c == '\n' || c == '\r')
  let con := match cs with
    | '-' :: resto => (true, resto)
    | '+' :: resto => (false, resto)
    | _ => (false, cs)
  let ds := con.2.takeWhile (fun c => c.isDigit)
  if ds.isEmpty then none
  else some (if con.1 then -(valorDigitos ds : Int) else (valorDigitos ds : Int))

/-- The outgoing messages of `flowCita`, one constructor per
`flowDynamic` call site (payload = the data interpolated into the
template). -/
inductive Mensaje
  | numeroInvalido
  | sinHorarios (dia : Nat)
  | listaHorarios (dia : Nat) (horarios : List String)
  | opcionInvalida
  | yaReservado
  | confirmada (dia : Nat) (hora : String)
  | errorConflicto
  | errorGuardado
deriving DecidableEq, Repr

/-- Conversation phase after a handler runs: `enDias` = stay at day
selection (`fallBack`), `enHorarios` = advance to slot selection,
`inactiva` = flow over, requester must restart with the greeting,
`completada` = booking confirmed, `abortada` = the handler threw
(uncaught `cargarCitas` fault), ending the flow with no message. -/
inductive Fase
  | enDias
  | enHorarios
  | inactiva
  | completada
  | abortada
deriving DecidableEq, Repr

/-- The per-requester session state (`state` of the flow): the offered
day list and the two values stored by the day-selection handler. -/
structure EstadoConv where
  diasDisponibles : List Nat
  diaSeleccionado : Option Nat
  horariosDisponibles : Option (List String)
deriving DecidableEq, Repr

/-- Result of the day-selection handler: messages sent in order, next
phase, session state, and the collection (never written here). -/
structure Salida2 where
  mensajes : List Mensaje
  fase : Fase
  estado : EstadoConv
  citas : Citas
deriving DecidableEq, Repr

/-- The day-selection handler (second `addAnswer` of `flowCita`,
src/app.js:138-176): parse the reply as a 1-based index into the stored
day list; on an invalid reply send the validation message and
`fallBack` (state untouched); otherwise read the collection live,
filter the free slots, and either report no availability (flow ends) or
store the selection and advance. -/
def etapaDias (est : EstadoConv) (cuerpo : String) (falloCarga : Bool) (citas : Citas) :
    Salida2 :=
  let dias := est.diasDisponibles
  match parseIntJs cuerpo with
  | none => ⟨[.numeroInvalido], .enDias, est, citas⟩
  | some n =>
    if n < 1 ∨ (dias.length : Int) < n then ⟨[.numeroInvalido], .enDias, est, citas⟩
    else
      let dia := dias.getD (n.toNat - 1) 0
      match cargarCitas falloCarga citas with
      | none => ⟨[], .abortada, est, citas⟩
      | some cs =>
        let libres := horariosDisponibles dia cs
        if libres.length = 0 then ⟨[.sinHorarios dia], .inactiva, est, citas⟩
        else
          ⟨[.listaHorarios dia libres], .enHorarios,
            { est with diaSeleccionado := some dia, horariosDisponibles := some libres }, citas⟩

/-- Result of the slot-selection handler: messages sent in order, final
phase, the collection after the handler, and the outcome of the
`guardarCita` call (`none` when the save was never attempted). -/
structure Salida3 where
  mensajes : List Mensaje
  fase : Fase
  citas : Citas
  guardado : Option ResultadoGuardar
deriving DecidableEq, Repr

/-- The slot-selection handler (third `addAnswer` of `flowCita`,
src/app.js:177-225): parse the reply as a 1-based index into the stored
slot list; on an invalid reply instruct a restart (flow ends, no save);
otherwise re-read the collection (`citasLeidas` is the snapshot the
read sees), refuse if the key already appears in the snapshot, and
finally call `guardarCita` against the collection as it stands at save
time (`citasActuales`; concurrent commits may have changed it since the
snapshot), confirming on `committed` and reporting the caught error
otherwise. -/
def etapaHorario (diaSeleccionado : Nat) (horarios : List String) (cuerpo : String)
    (falloCarga falloGuardar : Bool) (usuario : String) (ahora : Nat)
    (citasLeidas citasActuales : Citas) : Salida3 :=
  match parseIntJs cuerpo with
  | none => ⟨[.opcionInvalida], .inactiva, citasActuales, none⟩
  | some n =>
    if n < 1 ∨ (horarios.length : Int) < n then ⟨[.opcionInvalida], .inactiva, citasActuales, none⟩
    else
      let horaSeleccionada := horarios.getD (n.toNat - 1) ""
      let clave : Clave := (diaSeleccionado, horaSeleccionada)
      match cargarCitas falloCarga citasLeidas with
      | none => ⟨[], .abortada, citasActuales, none⟩
      | some cs =>
        if (buscarCita cs clave).isSome then ⟨[.yaReservado], .inactiva, citasActuales, none⟩
        else
          let datos : Cita := ⟨diaSeleccionado, horaSeleccionada, usuario, ahora⟩
          let paso := guardarCita falloGuardar citasActuales clave datos
          match paso.1 with
          | .committed =>
            ⟨[.confirmada diaSeleccionado horaSeleccionada], .completada, paso.2, some .committed⟩
          | .conflicto => ⟨[.errorConflicto], .inactiva, paso.2, some .conflicto⟩
          | .noDisponible => ⟨[.errorGuardado], .inactiva, paso.2, some .noDisponible⟩

/-- The validity test `isNaN(num) || num < 1 || num > lista.length`
shared by both capture handlers, as a decidable predicate on the raw
reply. -/
def entradaInvalida (cuerpo : String) (longitud : Nat) : Bool :=
  match parseIntJs cuerpo with
  | none => true
  | some n => decide (n < 1) || decide ((longitud : Int) < n)

/-- C8: at day selection, any reply that parses to no integer or to an
index outside `[1, len(dias)]` produces exactly the validation message,
keeps the conversation at day selection (`fallBack`), and leaves the
session state — in particular the offered day list — and the collection
untouched. -/
theorem etapaDias_entradaInvalida (est : EstadoConv) (cuerpo : String) (falloCarga : Bool)
    (citas : Citas) (h : entradaInvalida cuerpo est.diasDisponibles.length = true) :
    etapaDias est cuerpo falloCarga citas = ⟨[.numeroInvalido], .enDias, est, citas⟩ := by
  cases hp : parseIntJs cuerpo with
  | none => simp [etapaDias, hp]
  | some n =>
    simp only [entradaInvalida, hp, Bool.or_eq_true, decide_eq_true_eq] at h
    simp only [etapaDias, hp]
    rw [if_pos h]

/-- C8 witness: the out-of-range reply "9" against 5 offered days. -/
theorem etapaDias_entradaInvalida_witness :
    etapaDias ⟨[701, 702, 703, 704, 707], none, none⟩ "9" false [] =
      ⟨[.numeroInvalido], .enDias, ⟨[701, 702, 703, 704, 707], none, none⟩, []⟩ :=
  etapaDias_entradaInvalida ⟨[701, 702, 703, 704, 707], none, none⟩ "9" false [] (by decide)

/-- C7: at day selection, a valid day choice whose free-slot list is
empty produces exactly the no-availability message, ends the flow
(requester must restart), and neither touches the session state nor
writes to the collection (no reservation is attempted). -/
theorem etapaDias_sinDisponibilidad (est : EstadoConv) (cuerpo : String) (citas : Citas)
    (n : Int) (hp : parseIntJs cuerpo = some n) (h1 : 1 ≤ n)
    (h2 : n ≤ (est.diasDisponibles.length : Int))
    (hvacio : horariosDisponibles (est.diasDisponibles.getD (n.toNat - 1) 0) citas = []) :
    etapaDias est cuerpo false citas =
      ⟨[.sinHorarios (est.diasDisponibles.getD (n.toNat - 1) 0)], .inactiva, est, citas⟩ := by
  simp only [etapaDias, hp]
  rw [if_neg (by omega)]
  simp only [cargarCitas, Bool.false_eq_true, if_false]
  rw [hvacio]
  simp

/-- A day with all five catalog slots taken, for the witnesses. -/
def citasLlenas : Citas :=
  [((700, "9:00 AM"), citaEjemplo), ((700, "10:30 AM"), citaEjemplo),
   ((700, "1:00 PM"), citaEjemplo), ((700, "3:30 PM"), citaEjemplo),
   ((700, "5:00 PM"), citaEjemplo)]

/-- C7 witness: choosing the only offered day when its five slots are
all booked. -/
theorem etapaDias_sinDisponibilidad_witness :
    etapaDias ⟨[700], none, none⟩ "1" false citasLlenas =
      ⟨[.sinHorarios 700], .inactiva, ⟨[700], none, none⟩, citasLlenas⟩ :=
  etapaDias_sinDisponibilidad ⟨[700], none, none⟩ "1" citasLlenas 1
    (by decide) (by decide) (by decide) (by decide)

/-- C9: at slot selection, any reply that is not a valid 1-based index
into the stored slot list produces exactly the restart-instructing
error, ends the flow (no re-prompt at this stage), attempts no save
(`guardado = none`), and leaves the collection unchanged. -/
theorem etapaHorario_indiceInvalido (dia : Nat) (horarios : List String) (cuerpo : String)
    (falloCarga falloGuardar : Bool) (usuario : String) (ahora : Nat)
    (citasLeidas citasActuales : Citas)
    (h : entradaInvalida cuerpo horarios.length = true) :
    etapaHorario dia horarios cuerpo falloCarga falloGuardar usuario ahora citasLeidas
        citasActuales = ⟨[.opcionInvalida], .inactiva, citasActuales, none⟩ := by
  cases hp : parseIntJs cuerpo with
  | none => simp [etapaHorario, hp]
  | some n =>
    simp only [entradaInvalida, hp, Bool.or_eq_true, decide_eq_true_eq] at h
    simp only [etapaHorario, hp]
    rw [if_pos h]

/-- C9 witness: the out-of-range reply "2" against a single offered
slot. -/
theorem etapaHorario_indiceInvalido_witness :
    etapaHorario 702 ["9:00 AM"] "2" false false "u" 0 [] [] =
      ⟨[.opcionInvalida], .inactiva, [], none⟩ :=
  etapaHorario_indiceInvalido 702 ["9:00 AM"] "2" false false "u" 0 [] [] (by decide)

/-- C3: the slot-selection handler completes the conversation exactly
when its `guardarCita` call returned `committed`, and the confirmation
message is sent exactly in that case; a `conflicto` outcome yields the
slot-taken restart message and a generic save fault yields the failure
message, both ending the flow without confirmation. -/
theorem etapaHorario_soloCommitted (dia : Nat) (horarios : List String) (cuerpo : String)
    (falloCarga falloGuardar : Bool) (usuario : String) (ahora : Nat)
    (citasLeidas citasActuales : Citas) :
    ((etapaHorario dia horarios cuerpo falloCarga falloGuardar usuario ahora citasLeidas
        citasActuales).fase = .completada ↔
      (etapaHorario dia horarios cuerpo falloCarga falloGuardar usuario ahora citasLeidas
        citasActuales).guardado = some .committed) ∧
    ((∃ d h, Mensaje.confirmada d h ∈
        (etapaHorario dia horarios cuerpo falloCarga falloGuardar usuario ahora citasLeidas
          citasActuales).mensajes) ↔
      (etapaHorario dia horarios cuerpo falloCarga falloGuardar usuario ahora citasLeidas
        citasActuales).guardado = some .committed) ∧
    ((etapaHorario dia horarios cuerpo falloCarga falloGuardar usuario ahora citasLeidas
        citasActuales).guardado = some .conflicto →
      (etapaHorario dia horarios cuerpo falloCarga falloGuardar usuario ahora citasLeidas
          citasActuales).mensajes = [.errorConflicto] ∧
        (etapaHorario dia horarios cuerpo falloCarga falloGuardar usuario ahora citasLeidas
          citasActuales).fase = .inactiva) ∧
    ((etapaHorario dia horarios cuerpo falloCarga falloGuardar usuario ahora citasLeidas
        citasActuales).guardado = some .noDisponible →
      (etapaHorario dia horarios cuerpo falloCarga falloGuardar usuario ahora citasLeidas
          citasActuales).mensajes = [.errorGuardado] ∧
        (etapaHorario dia horarios cuerpo falloCarga falloGuardar usuario ahora citasLeidas
          citasActuales).fase = .inactiva) := by
  cases hp : parseIntJs cuerpo with
  | none => simp [etapaHorario, hp]
  | some n =>
    by_cases hn : n < 1 ∨ (horarios.length : Int) < n
    · simp [etapaHorario, hp, hn]
    · cases falloCarga with
      | true => simp [etapaHorario, hp, hn, cargarCitas]
      | false =>
        simp only [etapaHorario, hp, if_neg hn, cargarCitas, Bool.false_eq_true, if_false]
        generalize horarios.getD (n.toNat - 1) "" = hora
        by_cases hb : (buscarCita citasLeidas (dia, hora)).isSome = true
        · simp [hb]
        · simp only [hb, if_false, Bool.false_eq_true]
          cases hg : (guardarCita falloGuardar citasActuales (dia, hora)
              ⟨dia, hora, usuario, ahora⟩).1 <;>
            simp [hg, hb]

/-- C3 witness: the theorem at a run that commits slot "9:00 AM" of day
702 against the empty collection. -/
theorem etapaHorario_soloCommitted_witness :
    ((etapaHorario 702 ["9:00 AM"] "1" false false "u" 0 [] []).fase = .completada ↔
      (etapaHorario 702 ["9:00 AM"] "1" false false "u" 0 [] []).guardado =
        some .committed) ∧
    ((∃ d h, Mensaje.confirmada d h ∈
        (etapaHorario 702 ["9:00 AM"] "1" false false "u" 0 [] []).mensajes) ↔
      (etapaHorario 702 ["9:00 AM"] "1" false false "u" 0 [] []).guardado =
        some .committed) ∧
    ((etapaHorario 702 ["9:00 AM"] "1" false false "u" 0 [] []).guardado =
        some .conflicto →
      (etapaHorario 702 ["9:00 AM"] "1" false false "u" 0 [] []).mensajes =
          [.errorConflicto] ∧
        (etapaHorario 702 ["9:00 AM"] "1" false false "u" 0 [] []).fase = .inactiva) ∧
    ((etapaHorario 702 ["9:00 AM"] "1" false false "u" 0 [] []).guardado =
        some .noDisponible →
      (etapaHorario 702 ["9:00 AM"] "1" false false "u" 0 [] []).mensajes =
          [.errorGuardado] ∧
        (etapaHorario 702 ["9:00 AM"] "1" false false "u" 0 [] []).fase = .inactiva) :=
  etapaHorario_soloCommitted 702 ["9:00 AM"] "1" false false "u" 0 [] []
